import Mathlib

/-!
Verification development for the `ev-charging-gaps` repository.

The Rust source (`src/lib.rs`, `src/main.rs`, `src/tests.rs`) is shallowly
embedded below.  Conventions of the embedding:

* `f64` values are modelled as exact real numbers (`ℝ`); the `f32` casts used
  for quadtree points and query rectangles are likewise modelled as exact.
* the Rust cast `as u64` applied to a nonnegative float truncates toward zero
  and saturates negative values at `0`; it is modelled by `Nat.floor`.
* `AllChargerLocations` (a quadtree over `f32` points plus a
  `HashMap<ItemId, ChargerLocation>`) is modelled by the list of charger
  records it holds; the quadtree range query `get_ids_that_overlap` followed
  by the `chargers_by_id` lookup is modelled by filtering that list with the
  rectangle-membership test (boundary inclusive), which is the documented
  semantics of a point item overlapping a query `Rect`.
* `sort_by_key` is a stable sort by the key; it is modelled by
  `List.mergeSort` on the (decidable) key order.
* network I/O (`reqwest`, OSRM) is modelled by explicit inputs: the oracle is
  a function from the candidate charger to its parsed response, and
  `get_osrm_distance`'s retry loop consumes an explicit list of attempt
  outcomes.
-/

/-- Assumed EV max range in meters (`MAX_RANGE_METERS` in `src/lib.rs`). -/
def MAX_RANGE_METERS : ℕ := 400000

/-- Ratio between the linear distance and driving distance at which the point
is assumed reachable (`CROW_FLIES_RATIO` in `src/lib.rs`). -/
noncomputable def CROW_FLIES_RATIO : ℝ := 0.1

/-- Earth radius in meters (`EARTH_RADIUS_METERS` in `src/lib.rs`). -/
noncomputable def EARTH_RADIUS_METERS : ℝ := 6371000

/-- Rust cast `as u64` of an `f64`, for the nonnegative values arising here:
truncation toward zero, with negative values saturating to `0`. -/
noncomputable def toU64 (x : ℝ) : ℕ := ⌊x⌋₊

/-- Charger record as indexed by the engine (struct `ChargerLocation`). -/
structure ChargerLocation where
  latitude : ℝ
  longitude : ℝ
  id : ℕ

/-- A sample location to classify (struct `TrialPoint`). -/
structure TrialPoint where
  latitude : ℝ
  longitude : ℝ

/-- Bounding region in degrees (struct `BoundingBox`). -/
structure BoundingBox where
  lat_start : ℝ
  lat_end : ℝ
  lon_start : ℝ
  lon_end : ℝ

/-- One row parsed from the charger CSV (struct `CsvRow`). -/
structure CsvRow where
  latitude : ℝ
  longitude : ℝ
  id : ℕ
  network : String

/-- Query rectangle of the quadtree (struct `quadtree_f32::Rect`); the `f32`
fields are modelled as reals. -/
structure Rect where
  max_x : ℝ
  max_y : ℝ
  min_x : ℝ
  min_y : ℝ

/-- Route entry of an OSRM response body (struct `Route`). -/
structure Route where
  distance : ℝ

/-- Parsed OSRM response body (struct `Json`). -/
structure Json where
  routes : List Route

/-- Verdict of the reachability classifier (enum `CheckResult`). -/
inductive CheckResult where
  | Yes : CheckResult
  | No : CheckResult
  | Maybe (candidates : List (ChargerLocation × ℕ)) : CheckResult

/-- The free function `add_meters_to_coords` of `src/lib.rs`. -/
noncomputable def add_meters_to_coords (meters : ℝ) (coords : ℝ × ℝ) : ℝ × ℝ :=
  let degrees_lat := coords.1 + meters / EARTH_RADIUS_METERS * (180 / Real.pi)
  let degrees_lon := coords.2 +
    meters / EARTH_RADIUS_METERS * (180 / Real.pi) / Real.cos (coords.1 * Real.pi / 180)
  (degrees_lat, degrees_lon)

/-- Two-argument arctangent, the semantics of Rust's `f64::atan2` on the
(finite, non-NaN) values arising here. -/
noncomputable def atan2 (y x : ℝ) : ℝ :=
  if 0 < x then Real.arctan (y / x)
  else if x < 0 then
    (if 0 ≤ y then Real.arctan (y / x) + Real.pi else Real.arctan (y / x) - Real.pi)
  else if 0 < y then Real.pi / 2
  else if y < 0 then -(Real.pi / 2)
  else 0

/-- Haversine distance `TrialPoint::distance_to` of `src/lib.rs`. -/
noncomputable def TrialPoint.distance_to (p : TrialPoint) (charger : ChargerLocation) : ℝ :=
  let lat1 := p.latitude * (Real.pi / 180)
  let lat2 := charger.latitude * (Real.pi / 180)
  let delta_lat := (p.latitude - charger.latitude) * (Real.pi / 180)
  let delta_lon := (p.longitude - charger.longitude) * (Real.pi / 180)
  let a := Real.sin (delta_lat / 2) ^ 2 +
    Real.cos lat1 * Real.cos lat2 * Real.sin (delta_lon / 2) ^ 2
  let c := 2 * atan2 (Real.sqrt a) (Real.sqrt (1 - a))
  EARTH_RADIUS_METERS * c

/-- Padding constant `PADDED_MAX_RANGE_METERS` of `TrialPoint::nearest_chargers`. -/
noncomputable def PADDED_MAX_RANGE_METERS : ℝ := (MAX_RANGE_METERS : ℝ) + 25000

/-- The padded query rectangle built at the start of
`TrialPoint::nearest_chargers` from `add_meters_to_coords`. -/
noncomputable def TrialPoint.queryRect (p : TrialPoint) : Rect :=
  let maxc := add_meters_to_coords PADDED_MAX_RANGE_METERS (p.latitude, p.longitude)
  let minc := add_meters_to_coords (-PADDED_MAX_RANGE_METERS) (p.latitude, p.longitude)
  { max_x := maxc.1, max_y := maxc.2, min_x := minc.1, min_y := minc.2 }

/-- Membership of a charger's stored point in a query rectangle, boundary
inclusive: the semantics of `QuadTree::get_ids_that_overlap` for point items. -/
def overlaps (r : Rect) (c : ChargerLocation) : Prop :=
  r.min_x ≤ c.latitude ∧ c.latitude ≤ r.max_x ∧
  r.min_y ≤ c.longitude ∧ c.longitude ≤ r.max_y

noncomputable instance (r : Rect) (c : ChargerLocation) : Decidable (overlaps r c) := by
  unfold overlaps; infer_instance

/-- The method `TrialPoint::nearest_chargers` of `src/lib.rs`: query the
quadtree with the padded rectangle, compute the truncated haversine distance
to each returned charger, and stably sort by that distance.  Note the source
applies no `MAX_RANGE_METERS` filter here. -/
noncomputable def TrialPoint.nearest_chargers (p : TrialPoint)
    (chargers : List ChargerLocation) : List (ChargerLocation × ℕ) :=
  let bbox := p.queryRect
  let ids := chargers.filter (fun c => decide (overlaps bbox c))
  let chargers_distances := ids.map (fun c => (c, toU64 (p.distance_to c)))
  chargers_distances.mergeSort (fun a b => decide (a.2 ≤ b.2))

/-- The method `TrialPoint::check_charger` of `src/lib.rs`. -/
noncomputable def TrialPoint.check_charger (p : TrialPoint)
    (chargers : List ChargerLocation) : CheckResult :=
  match p.nearest_chargers chargers with
  | [] => CheckResult.No
  | (c, d) :: rest =>
    if d < toU64 ((MAX_RANGE_METERS : ℝ) * CROW_FLIES_RATIO) then CheckResult.Yes
    else CheckResult.Maybe ((c, d) :: rest)

/-- The slow linear scan of the test `quadtree_include_relevant_points` in
`src/tests.rs` (and `src/lib.rs` test module): distance to every charger,
keep those with truncated distance strictly below `MAX_RANGE_METERS`, stably
sort ascending by distance. -/
noncomputable def slow_scan (p : TrialPoint)
    (chargers : List ChargerLocation) : List (ChargerLocation × ℕ) :=
  let slow_check := chargers.filterMap (fun charger =>
    let distance := toU64 (p.distance_to charger)
    if distance < MAX_RANGE_METERS then some (charger, distance) else none)
  slow_check.mergeSort (fun a b => decide (a.2 ≤ b.2))

/-- The method `BoundingBox::width` of `src/lib.rs`. -/
noncomputable def BoundingBox.width (b : BoundingBox) : ℝ :=
  |b.lat_start - b.lat_end|

/-- The method `BoundingBox::height` of `src/lib.rs`. -/
noncomputable def BoundingBox.height (b : BoundingBox) : ℝ :=
  |b.lon_start - b.lon_end|

/-- The method `BoundingBox::generate_grid` of `src/lib.rs`: the nested
`for lat in 0..number_lat_pts { for lon in 0..number_lon_pts { ... } }` push
loop is written as `flatMap`/`map` over `List.range`. -/
noncomputable def BoundingBox.generate_grid (b : BoundingBox)
    (resolution : ℝ) : List TrialPoint :=
  let number_lat_pts := toU64 (b.width / resolution)
  let number_lon_pts := toU64 (b.height / resolution)
  (List.range number_lat_pts).flatMap (fun (lat : ℕ) =>
    (List.range number_lon_pts).map (fun (lon : ℕ) =>
      { latitude := b.lat_start + (lat : ℝ) * resolution,
        longitude := b.lon_start + (lon : ℝ) * resolution }))

/-- The method `BoundingBox::chunkify` of `src/lib.rs`; `chunks / 2` is the
source's truncating `usize` division. -/
noncomputable def BoundingBox.chunkify (b : BoundingBox)
    (chunks : ℕ) : List BoundingBox :=
  let width_interval := b.width / ((chunks / 2 : ℕ) : ℝ)
  (List.range chunks).map (fun (num_width_intervals : ℕ) =>
    let current_width_interval := (num_width_intervals : ℝ) * width_interval
    { lat_start := b.lat_start - current_width_interval,
      lat_end := b.lat_start - (current_width_interval + width_interval),
      lon_start := b.lon_start,
      lon_end := b.lon_end })

/-- Substring test on character lists: the semantics of Rust's
`str::contains(&str)` as used by the Tesla network filter of `read_csv`. -/
def hasSubstring (pat : List Char) : List Char → Bool
  | [] => pat.isEmpty
  | c :: rest => pat.isPrefixOf (c :: rest) || hasSubstring pat rest

/-- The function `read_csv` of `src/lib.rs`.  The `csv::Reader::deserialize`
iterator is modelled by the list of its per-record parse results; `filter_map
(row.ok())` drops the failed ones, the `network.contains("Tesla")` filter
drops Tesla rows, and the remaining rows become `ChargerLocation`s.  The
function body has no error path: it always returns `Ok`. -/
def read_csv (rows : List (Except String CsvRow)) :
    Except String (List ChargerLocation) :=
  Except.ok (((rows.filterMap Except.toOption).filter
      (fun row => !(hasSubstring "Tesla".toList row.network.toList))).map
    (fun location =>
      ({ latitude := location.latitude, longitude := location.longitude,
         id := location.id } : ChargerLocation)))

/-- Outcome of one iteration of the retry loop in
`TrialPoint::get_osrm_distance`: either the HTTP exchange failed, or it
produced a body whose `serde_json` parse result is given (`none` when the
body does not parse as `Json`). -/
inductive OsrmAttempt where
  | reqErr (error : String) : OsrmAttempt
  | response (parsed : Option Json) : OsrmAttempt

/-- Result of `TrialPoint::get_osrm_distance`.  `panicked` marks the
out-of-bounds index `body.routes[0]`; `pending` means the supplied attempt
list ran out while the source loop would still be retrying. -/
inductive OsrmResult where
  | found (distance : ℝ) : OsrmResult
  | noRoute : OsrmResult
  | panicked : OsrmResult
  | pending : OsrmResult

/-- The retry loop of `TrialPoint::get_osrm_distance` of `src/lib.rs`, run on
an explicit list of attempt outcomes: transport errors retry (the backoff
sleep has no semantic content), an unparseable body returns `None`
(`noRoute`), and a parsed body is indexed at `routes[0]`. -/
def get_osrm_distance : List OsrmAttempt → OsrmResult
  | [] => OsrmResult.pending
  | OsrmAttempt.reqErr _ :: rest => get_osrm_distance rest
  | OsrmAttempt.response none :: _ => OsrmResult.noRoute
  | OsrmAttempt.response (some body) :: _ =>
    match body.routes with
    | [] => OsrmResult.panicked
    | route :: _ => OsrmResult.found route.distance

/-- The oracle-consultation loop of `AllChargerLocations::find_gaps`
(`src/lib.rs`, the `CheckResult::Maybe` arm) for a single trial point.  The
oracle is modelled as a function from the candidate charger to the parsed
response of `get_osrm_distance`.  The second accumulator is the running
`tried_chargers` counter; the result is the final `is_reachable` flag paired
with the number of oracle requests issued (one per iteration entered). -/
noncomputable def oracleLoop (oracle : ChargerLocation → Option ℝ) :
    List (ChargerLocation × ℕ) → ℕ → Bool × ℕ
  | [], _ => (false, 0)
  | (charger, _) :: rest, tried =>
    match oracle charger with
    | some distance =>
      if toU64 distance ≤ MAX_RANGE_METERS then (true, 1)
      else if tried + 1 = 50 then (false, 1)
      else
        let r := oracleLoop oracle rest (tried + 1)
        (r.1, r.2 + 1)
    | none =>
      let r := oracleLoop oracle rest tried
      (r.1, r.2 + 1)

lemma chunkify_width_interval_nonneg (b : BoundingBox) (N : ℕ) :
    (0 : ℝ) ≤ b.width / ((N / 2 : ℕ) : ℝ) :=
  div_nonneg (abs_nonneg _) (Nat.cast_nonneg _)

lemma chunkify_head (b : BoundingBox) (N : ℕ) (hN : N ≠ 0) :
    (b.chunkify N).head? = some
      ⟨b.lat_start, b.lat_start - ((0 : ℝ) * (b.width / ((N / 2 : ℕ) : ℝ)) +
        b.width / ((N / 2 : ℕ) : ℝ)), b.lon_start, b.lon_end⟩ := by
  obtain ⟨m, rfl⟩ := Nat.exists_eq_succ_of_ne_zero hN
  simp only [BoundingBox.chunkify, List.range_succ_eq_map, List.map_cons,
    List.head?_cons, Option.some.injEq]
  norm_num

/-- C4: for every bounding region and chunk count `N ∈ {4,6,8,10,12}`,
`chunkify` returns exactly `N` sub-regions, each of latitude-width
`region.width / (N/2)` and with the original height and longitude edges, and
the first sub-region's start edges equal the original start edges. -/
theorem c4_chunkify_shape (b : BoundingBox) (N : ℕ)
    (hN : N = 4 ∨ N = 6 ∨ N = 8 ∨ N = 10 ∨ N = 12) :
    (b.chunkify N).length = N ∧
    (∀ chunk ∈ b.chunkify N,
      chunk.width = b.width / ((N / 2 : ℕ) : ℝ) ∧
      chunk.height = b.height ∧
      chunk.lon_start = b.lon_start ∧ chunk.lon_end = b.lon_end) ∧
    ∀ first, (b.chunkify N).head? = some first →
      first.lat_start = b.lat_start ∧ first.lon_start = b.lon_start := by
  have hN0 : N ≠ 0 := by rcases hN with rfl | rfl | rfl | rfl | rfl <;> decide
  refine ⟨?_, ?_, ?_⟩
  · simp only [BoundingBox.chunkify]
    rw [List.length_map, List.length_range]
  · intro chunk hchunk
    simp only [BoundingBox.chunkify, List.mem_map, List.mem_range] at hchunk
    obtain ⟨i, hi, rfl⟩ := hchunk
    refine ⟨?_, rfl, rfl, rfl⟩
    show |b.lat_start - (i : ℝ) * (b.width / ((N / 2 : ℕ) : ℝ)) -
      (b.lat_start - ((i : ℝ) * (b.width / ((N / 2 : ℕ) : ℝ)) +
        b.width / ((N / 2 : ℕ) : ℝ)))| = b.width / ((N / 2 : ℕ) : ℝ)
    rw [show b.lat_start - (i : ℝ) * (b.width / ((N / 2 : ℕ) : ℝ)) -
      (b.lat_start - ((i : ℝ) * (b.width / ((N / 2 : ℕ) : ℝ)) +
        b.width / ((N / 2 : ℕ) : ℝ))) = b.width / ((N / 2 : ℕ) : ℝ) by ring]
    exact abs_of_nonneg (chunkify_width_interval_nonneg b N)
  · intro first hfirst
    rw [chunkify_head b N hN0, Option.some_inj] at hfirst
    subst hfirst
    exact ⟨rfl, rfl⟩

/-- C3 (code bug): at the region with `lat_start = 1`, `lat_end = 0` and
`N = 4` chunks, the last sub-region's `lat_end` is `-1`, not the original
region's `lat_end = 0`: the `N` bands of width `width / (N/2)` span twice the
latitude extent of the region. -/
theorem c3_chunkify_last_edge_bug :
    ((BoundingBox.chunkify ⟨1, 0, 0, 1⟩ 4).getLast?).map BoundingBox.lat_end =
      some (-1) ∧ ((-1 : ℝ) ≠ (0 : ℝ)) := by
  constructor
  · simp only [BoundingBox.chunkify, BoundingBox.width, List.range_succ,
      List.range_zero, List.nil_append, List.map_append, List.map_cons,
      List.map_nil, List.getLast?_append, List.getLast?_singleton,
      Option.or_some, Option.map_some]
    norm_num
  · norm_num

lemma oracleLoop_none_requests (l : List (ChargerLocation × ℕ)) (tried : ℕ) :
    oracleLoop (fun _ => none) l tried = (false, l.length) := by
  induction l generalizing tried with
  | nil => simp [oracleLoop]
  | cons hd tl ih =>
    obtain ⟨c, d⟩ := hd
    simp [oracleLoop, ih]

/-- C6 counterexample: with an oracle whose every response is undetermined
(`None`) and 51 candidates, the loop issues 51 oracle requests for a single
point, exceeding the claimed cap of 50. -/
theorem c6_counterexample_cap_exceeded :
    (oracleLoop (fun _ => none) (List.replicate 51 (⟨0, 0, 1⟩, 500000)) 0).2 = 51 ∧
    ¬ ((oracleLoop (fun _ => none) (List.replicate 51 (⟨0, 0, 1⟩, 500000)) 0).2 ≤ 50) := by
  rw [oracleLoop_none_requests]
  simp

lemma oracleLoop_requests_le_length (oracle : ChargerLocation → Option ℝ)
    (l : List (ChargerLocation × ℕ)) : ∀ tried, (oracleLoop oracle l tried).2 ≤ l.length := by
  induction l with
  | nil => intro tried; simp [oracleLoop]
  | cons hd tl ih =>
    intro tried
    obtain ⟨c, d⟩ := hd
    simp only [oracleLoop, List.length_cons]
    cases oracle c with
    | none => simpa using Nat.succ_le_succ (ih tried)
    | some distance =>
      by_cases h1 : toU64 distance ≤ MAX_RANGE_METERS
      · simp [h1]
      · by_cases h2 : tried + 1 = 50
        · simp [h1, h2]
        · simpa [h1, h2] using Nat.succ_le_succ (ih (tried + 1))

lemma oracleLoop_requests_le_cap (oracle : ChargerLocation → Option ℝ)
    (l : List (ChargerLocation × ℕ)) :
    ∀ tried, (∀ cd ∈ l, (oracle cd.1).isSome = true) → tried < 50 →
      (oracleLoop oracle l tried).2 ≤ 50 - tried := by
  induction l with
  | nil => intro tried _ _; simp [oracleLoop]
  | cons hd tl ih =>
    intro tried hsome htried
    obtain ⟨c, d⟩ := hd
    have hc : (oracle c).isSome = true := hsome (c, d) (List.mem_cons_self _ _)
    cases hoc : oracle c with
    | none => rw [hoc] at hc; simp at hc
    | some distance =>
      simp only [oracleLoop, hoc]
      by_cases h1 : toU64 distance ≤ MAX_RANGE_METERS
      · simp only [h1, if_true]
        omega
      · by_cases h2 : tried + 1 = 50
        · simp only [h1, if_false, h2, if_true]
          omega
        · simp only [h1, if_false, h2]
          have := ih (tried + 1) (fun cd hcd => hsome cd (List.mem_cons_of_mem _ hcd))
            (by omega)
          omega

/-- C6 amended: when every consulted candidate yields a definite (`Some`)
oracle response, at most 50 oracle requests are issued per `Maybe` point;
undetermined (`None`) responses do not count toward the `tried_chargers` cap,
so in general the request count is bounded only by the candidate-list
length. -/
theorem c6_amended_oracle_cap (oracle : ChargerLocation → Option ℝ)
    (candidates : List (ChargerLocation × ℕ))
    (hsome : ∀ cd ∈ candidates, (oracle cd.1).isSome = true) :
    (oracleLoop oracle candidates 0).2 ≤ 50 ∧
    (oracleLoop oracle candidates 0).2 ≤ candidates.length :=
  ⟨oracleLoop_requests_le_cap oracle candidates 0 hsome (by omega),
   oracleLoop_requests_le_length oracle candidates 0⟩

/-- Witness for the amended C6 at a concrete all-`Some` oracle and 60
candidates. -/
theorem c6_amended_witness :
    (oracleLoop (fun _ => some 500000) (List.replicate 60 (⟨0, 0, 1⟩, 0)) 0).2 ≤ 50 ∧
    (oracleLoop (fun _ => some 500000) (List.replicate 60 (⟨0, 0, 1⟩, 0)) 0).2 ≤
      (List.replicate 60 ((⟨0, 0, 1⟩ : ChargerLocation), 0)).length :=
  c6_amended_oracle_cap _ _ (by intro cd _; simp)

/-- C7 counterexample: a run whose record stream contains a malformed record
does not fail; `read_csv` silently drops the record and returns the partial
charger set. -/
theorem c7_counterexample_partial_set :
    read_csv [Except.error "malformed", Except.ok ⟨0, 0, 1, "ChargePoint"⟩] =
      Except.ok [⟨0, 0, 1⟩] ∧
    (read_csv [Except.error "malformed", Except.ok ⟨0, 0, 1, "ChargePoint"⟩]).isOk = true := by
  constructor
  · rfl
  · rfl

/-- C7 amended: `read_csv` never returns an error; a malformed record is
silently skipped and contributes nothing to the charger set (only failure to
open or download the source aborts a run, in `read_from_file` and
`download_source_data`). -/
theorem c7_amended_read_csv_skips (rows : List (Except String CsvRow)) (e : String) :
    read_csv (Except.error e :: rows) = read_csv rows ∧
    (read_csv rows).isOk = true := by
  constructor
  · simp [read_csv, List.filterMap_cons, Except.toOption]
  · rfl

/-- C10: when an OSRM HTTP exchange succeeds and its body parses as `Json`
but the `routes` array is empty, `get_osrm_distance` neither returns `None`
nor retries: the unguarded `body.routes[0]` panics immediately, whatever
attempts would follow; and `None` (`noRoute`) is returned only when, after
some transport-error retries, a body fails to parse as the expected shape. -/
theorem c10_osrm_empty_routes_panics (body : Json) (rest attempts : List OsrmAttempt) :
    (body.routes = [] →
      get_osrm_distance (OsrmAttempt.response (some body) :: rest) = OsrmResult.panicked) ∧
    (get_osrm_distance attempts = OsrmResult.noRoute →
      ∃ pre tl, attempts = pre ++ OsrmAttempt.response none :: tl ∧
        ∀ a ∈ pre, ∃ err, a = OsrmAttempt.reqErr err) ∧
    get_osrm_distance (OsrmAttempt.response (some body) :: rest) ≠ OsrmResult.noRoute := by
  refine ⟨?_, ?_, ?_⟩
  · intro h
    simp [get_osrm_distance, h]
  · intro h
    induction attempts with
    | nil => simp [get_osrm_distance] at h
    | cons hd tl ih =>
      cases hd with
      | reqErr err =>
        obtain ⟨pre, tl2, heq, hpre⟩ := ih (by simpa [get_osrm_distance] using h)
        refine ⟨OsrmAttempt.reqErr err :: pre, tl2, by rw [heq]; rfl, ?_⟩
        intro a ha
        rcases List.mem_cons.mp ha with rfl | ha2
        · exact ⟨err, rfl⟩
        · exact hpre a ha2
      | response parsed =>
        cases parsed with
        | none => exact ⟨[], tl, rfl, by simp⟩
        | some body2 =>
          exfalso
          cases hroutes : body2.routes with
          | nil => simp [get_osrm_distance, hroutes] at h
          | cons r rs => simp [get_osrm_distance, hroutes] at h
  · cases hroutes : body.routes with
    | nil => simp [get_osrm_distance, hroutes]
    | cons r rs => simp [get_osrm_distance, hroutes]

/-- Witness for C10: a concrete empty-routes body panics, and a concrete run
with one transport retry followed by an unparseable body yields `noRoute`
with the stated decomposition. -/
theorem c10_witness :
    get_osrm_distance [OsrmAttempt.response (some ⟨[]⟩)] = OsrmResult.panicked ∧
    ∃ pre tl, [OsrmAttempt.reqErr "timeout", OsrmAttempt.response none] =
      pre ++ OsrmAttempt.response none :: tl ∧
      ∀ a ∈ pre, ∃ err, a = OsrmAttempt.reqErr err :=
  ⟨(c10_osrm_empty_routes_panics ⟨[]⟩ [] []).1 rfl,
   (c10_osrm_empty_routes_panics ⟨[]⟩ []
     [OsrmAttempt.reqErr "timeout", OsrmAttempt.response none]).2.1 rfl⟩

lemma crow_flies_threshold : toU64 ((MAX_RANGE_METERS : ℝ) * CROW_FLIES_RATIO) = 40000 := by
  rw [toU64, MAX_RANGE_METERS, CROW_FLIES_RATIO]
  norm_num

lemma sorted_map_snd_mergeSort (l : List (ChargerLocation × ℕ)) :
    List.Sorted (· ≤ ·) ((l.mergeSort (fun a b => decide (a.2 ≤ b.2))).map Prod.snd) := by
  have htrans : ∀ (a b c : ChargerLocation × ℕ),
      (fun a b => decide (a.2 ≤ b.2)) a b = true →
      (fun a b => decide (a.2 ≤ b.2)) b c = true →
      (fun a b => decide (a.2 ≤ b.2)) a c = true := by
    intro a b c hab hbc
    simp only [decide_eq_true_eq] at hab hbc ⊢
    omega
  have htotal : ∀ (a b : ChargerLocation × ℕ),
      ((fun a b => decide (a.2 ≤ b.2)) a b || (fun a b => decide (a.2 ≤ b.2)) b a) = true := by
    intro a b
    simpa using Nat.le_total a.2 b.2
  have h := List.sorted_mergeSort htrans htotal l
  exact List.Pairwise.map Prod.snd (fun a b hab => by simpa using hab) h

lemma nearest_chargers_sorted (p : TrialPoint) (cs : List ChargerLocation) :
    List.Sorted (· ≤ ·) ((p.nearest_chargers cs).map Prod.snd) := by
  simp only [TrialPoint.nearest_chargers]
  exact sorted_map_snd_mergeSort _

/-- C1: for every trial point and charger set, `check_charger` returns `No`
exactly when the `nearest_chargers` list is empty, returns `Yes` exactly when
the list is non-empty and its smallest truncated distance is below
`⌊MAX_RANGE_METERS * CROW_FLIES_RATIO⌋ = 40000` meters, and otherwise
returns `Maybe` carrying exactly the `nearest_chargers` list; that list is
sorted ascending by distance, and the head distance is least. -/
theorem c1_check_charger_verdicts (p : TrialPoint) (cs : List ChargerLocation) :
    (p.check_charger cs = CheckResult.No ↔ p.nearest_chargers cs = []) ∧
    (p.check_charger cs = CheckResult.Yes ↔
      ∃ c d rest, p.nearest_chargers cs = (c, d) :: rest ∧ d < 40000) ∧
    (∀ c d rest, p.nearest_chargers cs = (c, d) :: rest → 40000 ≤ d →
      p.check_charger cs = CheckResult.Maybe (p.nearest_chargers cs)) ∧
    List.Sorted (· ≤ ·) ((p.nearest_chargers cs).map Prod.snd) ∧
    (∀ c d rest, p.nearest_chargers cs = (c, d) :: rest →
      ∀ cd ∈ p.nearest_chargers cs, d ≤ cd.2) := by
  have hsorted := nearest_chargers_sorted p cs
  have hmin : ∀ c d rest, p.nearest_chargers cs = (c, d) :: rest →
      ∀ cd ∈ p.nearest_chargers cs, d ≤ cd.2 := by
    intro c d rest heq cd hcd
    have hs := hsorted
    rw [heq] at hs hcd
    rcases List.mem_cons.mp hcd with rfl | hmem
    · exact le_refl _
    · exact (List.sorted_cons.mp hs).1 cd.2 (List.mem_map_of_mem Prod.snd hmem)
  refine ⟨?_, ?_, ?_, hsorted, hmin⟩
  · rcases hnc : p.nearest_chargers cs with _ | ⟨⟨c0, d0⟩, rest0⟩
    · simp [TrialPoint.check_charger, hnc]
    · simp only [TrialPoint.check_charger, hnc]
      by_cases hd : d0 < toU64 ((MAX_RANGE_METERS : ℝ) * CROW_FLIES_RATIO)
      · simp [hd]
      · simp [hd]
  · rcases hnc : p.nearest_chargers cs with _ | ⟨⟨c0, d0⟩, rest0⟩
    · simp [TrialPoint.check_charger, hnc]
    · simp only [TrialPoint.check_charger, hnc]
      rw [crow_flies_threshold]
      by_cases hd : d0 < 40000
      · simp only [hd, if_pos]
        constructor
        · intro _
          exact ⟨c0, d0, rest0, rfl, hd⟩
        · intro _
          trivial
      · simp only [hd, if_neg, if_false]
        constructor
        · intro h
          cases h
        · rintro ⟨c, d, rest, hcons, hlt⟩
          injection hcons with h1 h2
          injection h1 with h1a h1b
          omega
  · intro c d rest heq hge
    simp only [TrialPoint.check_charger, heq]
    rw [crow_flies_threshold]
    rw [if_neg (by omega)]

/-- Witness for C1 at the point `(0, 0)` with the empty charger set. -/
theorem c1_witness :
    TrialPoint.check_charger ⟨0, 0⟩ [] = CheckResult.No ∧
    ¬ TrialPoint.check_charger ⟨0, 0⟩ [] = CheckResult.Yes := by
  have h := c1_check_charger_verdicts ⟨0, 0⟩ []
  have hnil : TrialPoint.nearest_chargers ⟨0, 0⟩ [] = [] := by
    simp [TrialPoint.nearest_chargers]
  refine ⟨h.1.mpr hnil, fun hy => ?_⟩
  obtain ⟨c, d, rest, hcons, _⟩ := h.2.1.mp hy
  rw [hnil] at hcons
  cases hcons

/-- C9: the haversine distance is symmetric in its two coordinate pairs, and
the distance from a coordinate pair to itself is exactly zero. -/
theorem c9_distance_symm_self (lat1 lon1 lat2 lon2 : ℝ) (i1 i2 : ℕ) :
    TrialPoint.distance_to ⟨lat1, lon1⟩ ⟨lat2, lon2, i2⟩ =
      TrialPoint.distance_to ⟨lat2, lon2⟩ ⟨lat1, lon1, i1⟩ ∧
    TrialPoint.distance_to ⟨lat1, lon1⟩ ⟨lat1, lon1, i2⟩ = 0 := by
  constructor
  · simp only [TrialPoint.distance_to]
    have ha : Real.sin ((lat1 - lat2) * (Real.pi / 180) / 2) ^ 2 +
        Real.cos (lat1 * (Real.pi / 180)) * Real.cos (lat2 * (Real.pi / 180)) *
          Real.sin ((lon1 - lon2) * (Real.pi / 180) / 2) ^ 2 =
        Real.sin ((lat2 - lat1) * (Real.pi / 180) / 2) ^ 2 +
        Real.cos (lat2 * (Real.pi / 180)) * Real.cos (lat1 * (Real.pi / 180)) *
          Real.sin ((lon2 - lon1) * (Real.pi / 180) / 2) ^ 2 := by
      rw [show (lat1 - lat2) * (Real.pi / 180) / 2 =
            -((lat2 - lat1) * (Real.pi / 180) / 2) by ring,
          show (lon1 - lon2) * (Real.pi / 180) / 2 =
            -((lon2 - lon1) * (Real.pi / 180) / 2) by ring,
          Real.sin_neg, Real.sin_neg]
      ring
    rw [ha]
  · simp only [TrialPoint.distance_to, sub_self, zero_mul, zero_div,
      Real.sin_zero, ne_eq, OfNat.ofNat_ne_zero, not_false_eq_true, zero_pow,
      mul_zero, add_zero, Real.sqrt_zero, sub_zero, Real.sqrt_one]
    rw [show atan2 0 1 = 0 by
      simp [atan2, Real.arctan_zero]]
    ring

lemma range_grid_length {α : Type} (m n : ℕ) (g : ℕ → ℕ → α) :
    ((List.range m).flatMap fun i => (List.range n).map (g i)).length = m * n := by
  induction m with
  | zero => simp
  | succ k ih =>
    rw [List.range_succ, List.flatMap_append]
    simp only [List.flatMap_cons, List.flatMap_nil, List.append_nil,
      List.length_append, ih, List.length_map, List.length_range]
    ring

lemma range_grid_getElem {α : Type} (m n : ℕ) (g : ℕ → ℕ → α) (i j : ℕ)
    (hi : i < m) (hj : j < n) :
    ((List.range m).flatMap fun a => (List.range n).map (g a))[i * n + j]? =
      some (g i j) := by
  induction m with
  | zero => omega
  | succ k ih =>
    rw [List.range_succ, List.flatMap_append]
    rcases Nat.lt_succ_iff_lt_or_eq.mp hi with hik | rfl
    · rw [List.getElem?_append_left]
      · exact ih hik
      · rw [range_grid_length]
        have h1 : i * n + j < (i + 1) * n := by nlinarith
        have h2 : (i + 1) * n ≤ k * n := Nat.mul_le_mul_right n (by omega)
        omega
    · rw [List.getElem?_append_right (by rw [range_grid_length]; omega)]
      simp only [List.flatMap_cons, List.flatMap_nil, List.append_nil]
      rw [range_grid_length, Nat.add_sub_cancel_left, List.getElem?_map,
        List.getElem?_range hj]
      rfl

/-- C8 amended: for every bounding region and positive resolution,
`generate_grid` produces exactly `floor(width/resolution) *
floor(height/resolution)` trial points, in row-major order (latitude outer,
longitude inner), on the lattice that starts at the region's
`(lat_start, lon_start)` corner and steps by `+resolution` in both axes;
under the `lat_start > lat_end` convention used by the repository this corner
is the region's maximum-latitude corner, not its minimum-latitude one. -/
theorem c8_amended_generate_grid (b : BoundingBox) (resolution : ℝ)
    (_hres : 0 < resolution) :
    (b.generate_grid resolution).length =
      toU64 (b.width / resolution) * toU64 (b.height / resolution) ∧
    ∀ i j, i < toU64 (b.width / resolution) → j < toU64 (b.height / resolution) →
      (b.generate_grid resolution)[i * toU64 (b.height / resolution) + j]? =
        some ⟨b.lat_start + (i : ℝ) * resolution,
              b.lon_start + (j : ℝ) * resolution⟩ := by
  constructor
  · simp only [BoundingBox.generate_grid]
    exact range_grid_length _ _ _
  · intro i j hi hj
    simp only [BoundingBox.generate_grid]
    exact range_grid_getElem _ _ _ i j hi hj

/-- Witness for the amended C8 at the unit region with resolution 1. -/
theorem c8_amended_witness :
    (BoundingBox.generate_grid ⟨1, 0, 0, 1⟩ 1).length =
      toU64 ((⟨1, 0, 0, 1⟩ : BoundingBox).width / 1) *
        toU64 ((⟨1, 0, 0, 1⟩ : BoundingBox).height / 1) :=
  (c8_amended_generate_grid ⟨1, 0, 0, 1⟩ 1 (by norm_num)).1

/-- C8 counterexample: at the region with `lat_start = 1 > lat_end = 0` and
resolution 1, the grid is the single point `(1, 0)`, whose latitude is the
region's maximum latitude, not its minimum latitude `min 1 0 = 0`: the
lattice does not start at the minimum-latitude corner. -/
theorem c8_counterexample_not_min_corner :
    BoundingBox.generate_grid ⟨1, 0, 0, 1⟩ 1 = [⟨1, 0⟩] ∧
    min (1 : ℝ) 0 = 0 ∧ (1 : ℝ) ≠ 0 := by
  refine ⟨?_, by norm_num, by norm_num⟩
  have hw : toU64 ((⟨1, 0, 0, 1⟩ : BoundingBox).width / 1) = 1 := by
    simp [toU64, BoundingBox.width]
  have hh : toU64 ((⟨1, 0, 0, 1⟩ : BoundingBox).height / 1) = 1 := by
    simp [toU64, BoundingBox.height]
  simp only [BoundingBox.generate_grid, hw, hh]
  norm_num [List.range_succ]

lemma atan2_sin_cos (t : ℝ) (h0 : 0 ≤ t) (h1 : t < Real.pi / 2) :
    atan2 (Real.sin t) (Real.cos t) = t := by
  have hcos : 0 < Real.cos t :=
    Real.cos_pos_of_mem_Ioo ⟨by nlinarith [Real.pi_pos], h1⟩
  rw [atan2, if_pos hcos, ← Real.tan_eq_sin_div_cos,
    Real.arctan_tan (by nlinarith [Real.pi_pos]) h1]

lemma distance_origin_lon (lon t : ℝ) (i : ℕ) (h0 : 0 ≤ t) (h1 : t < Real.pi / 2)
    (hsin : Real.sin ((0 - lon) * (Real.pi / 180) / 2) ^ 2 = Real.sin t ^ 2) :
    TrialPoint.distance_to ⟨0, 0⟩ ⟨0, lon, i⟩ = EARTH_RADIUS_METERS * (2 * t) := by
  have hsint : 0 ≤ Real.sin t :=
    Real.sin_nonneg_of_nonneg_of_le_pi h0 (by nlinarith [Real.pi_pos])
  have hcost : 0 < Real.cos t :=
    Real.cos_pos_of_mem_Ioo ⟨by nlinarith [Real.pi_pos], h1⟩
  simp only [TrialPoint.distance_to, sub_self, zero_mul, zero_div, Real.sin_zero,
    ne_eq, OfNat.ofNat_ne_zero, not_false_eq_true, zero_pow, Real.cos_zero,
    one_mul, zero_add]
  rw [hsin, Real.sqrt_sq hsint,
    show (1 : ℝ) - Real.sin t ^ 2 = Real.cos t ^ 2 by
      nlinarith [Real.sin_sq_add_cos_sq t],
    Real.sqrt_sq hcost.le, atan2_sin_cos t h0 h1]

lemma queryRect_origin : TrialPoint.queryRect ⟨0, 0⟩ =
    { max_x := PADDED_MAX_RANGE_METERS / EARTH_RADIUS_METERS * (180 / Real.pi),
      max_y := PADDED_MAX_RANGE_METERS / EARTH_RADIUS_METERS * (180 / Real.pi),
      min_x := -(PADDED_MAX_RANGE_METERS / EARTH_RADIUS_METERS * (180 / Real.pi)),
      min_y := -(PADDED_MAX_RANGE_METERS / EARTH_RADIUS_METERS * (180 / Real.pi)) } := by
  simp only [TrialPoint.queryRect, add_meters_to_coords]
  rw [show (0 : ℝ) * Real.pi / 180 = 0 by ring, Real.cos_zero, Rect.mk.injEq]
  refine ⟨by ring, by ring, by ring, by ring⟩

lemma originPad_nonneg :
    (0 : ℝ) ≤ PADDED_MAX_RANGE_METERS / EARTH_RADIUS_METERS * (180 / Real.pi) := by
  rw [PADDED_MAX_RANGE_METERS, EARTH_RADIUS_METERS, MAX_RANGE_METERS]
  push_cast
  positivity

lemma originPad_ge_37 :
    (3.7 : ℝ) ≤ PADDED_MAX_RANGE_METERS / EARTH_RADIUS_METERS * (180 / Real.pi) := by
  rw [PADDED_MAX_RANGE_METERS, EARTH_RADIUS_METERS, MAX_RANGE_METERS]
  push_cast
  rw [show ((400000 : ℝ) + 25000) / 6371000 * (180 / Real.pi) =
    76500000 / (6371000 * Real.pi) by ring]
  rw [le_div_iff₀ (by positivity)]
  nlinarith [Real.pi_lt_d6]

lemma originPad_lt_359 :
    PADDED_MAX_RANGE_METERS / EARTH_RADIUS_METERS * (180 / Real.pi) < 359 := by
  rw [PADDED_MAX_RANGE_METERS, EARTH_RADIUS_METERS, MAX_RANGE_METERS]
  push_cast
  rw [show ((400000 : ℝ) + 25000) / 6371000 * (180 / Real.pi) =
    76500000 / (6371000 * Real.pi) by ring]
  rw [div_lt_iff₀ (by positivity)]
  nlinarith [Real.pi_gt_d6]

lemma overlap_origin_37 : overlaps (TrialPoint.queryRect ⟨0, 0⟩) ⟨0, 3.7, 1⟩ := by
  rw [queryRect_origin]
  exact ⟨by simpa using originPad_nonneg, originPad_nonneg,
    by nlinarith [originPad_nonneg], originPad_ge_37⟩

lemma not_overlap_origin_359 : ¬ overlaps (TrialPoint.queryRect ⟨0, 0⟩) ⟨0, 359, 7⟩ := by
  rw [queryRect_origin]
  rintro ⟨-, -, -, h4⟩
  exact absurd h4 (not_le.mpr originPad_lt_359)

lemma distance_origin_37 :
    TrialPoint.distance_to ⟨0, 0⟩ ⟨0, 3.7, 1⟩ =
      EARTH_RADIUS_METERS * (2 * (3.7 * Real.pi / 360)) := by
  refine distance_origin_lon 3.7 (3.7 * Real.pi / 360) 1 (by positivity)
    (by nlinarith [Real.pi_pos]) ?_
  rw [show ((0 : ℝ) - 3.7) * (Real.pi / 180) / 2 = -(3.7 * Real.pi / 360) by ring,
    Real.sin_neg]
  ring

lemma distance_origin_37_ge :
    (400000 : ℝ) ≤ TrialPoint.distance_to ⟨0, 0⟩ ⟨0, 3.7, 1⟩ := by
  rw [distance_origin_37, EARTH_RADIUS_METERS]
  nlinarith [Real.pi_gt_d6]

lemma toU64_distance_37_ge :
    MAX_RANGE_METERS ≤ toU64 (TrialPoint.distance_to ⟨0, 0⟩ ⟨0, 3.7, 1⟩) := by
  rw [MAX_RANGE_METERS, toU64]
  exact Nat.le_floor (by push_cast; linarith [distance_origin_37_ge])

lemma nearest_chargers_origin_37 :
    TrialPoint.nearest_chargers ⟨0, 0⟩ [⟨0, 3.7, 1⟩] =
      [(⟨0, 3.7, 1⟩, toU64 (TrialPoint.distance_to ⟨0, 0⟩ ⟨0, 3.7, 1⟩))] := by
  simp only [TrialPoint.nearest_chargers]
  rw [show ([⟨0, 3.7, 1⟩] : List ChargerLocation).filter
      (fun c => decide (overlaps (TrialPoint.queryRect ⟨0, 0⟩) c)) = [⟨0, 3.7, 1⟩] from by
    simp [overlap_origin_37]]
  rw [List.map_cons, List.map_nil, List.mergeSort_singleton]

/-- C2 (code bug): with the single charger at `(0, 3.7)` and the trial point
`(0, 0)`, the charger's geodesic distance is at least `MAX_RANGE_METERS`
(about 411 km), yet `nearest_chargers` keeps it (no range filter exists in
the source) and `check_charger` returns `Maybe`, consulting the oracle,
instead of the claimed `No` with zero oracle calls. -/
theorem c2_no_range_filter_bug :
    MAX_RANGE_METERS ≤ toU64 (TrialPoint.distance_to ⟨0, 0⟩ ⟨0, 3.7, 1⟩) ∧
    TrialPoint.nearest_chargers ⟨0, 0⟩ [⟨0, 3.7, 1⟩] =
      [(⟨0, 3.7, 1⟩, toU64 (TrialPoint.distance_to ⟨0, 0⟩ ⟨0, 3.7, 1⟩))] ∧
    TrialPoint.check_charger ⟨0, 0⟩ [⟨0, 3.7, 1⟩] =
      CheckResult.Maybe
        [(⟨0, 3.7, 1⟩, toU64 (TrialPoint.distance_to ⟨0, 0⟩ ⟨0, 3.7, 1⟩))] ∧
    TrialPoint.check_charger ⟨0, 0⟩ [⟨0, 3.7, 1⟩] ≠ CheckResult.No := by
  have hch : TrialPoint.check_charger ⟨0, 0⟩ [⟨0, 3.7, 1⟩] =
      CheckResult.Maybe
        [(⟨0, 3.7, 1⟩, toU64 (TrialPoint.distance_to ⟨0, 0⟩ ⟨0, 3.7, 1⟩))] := by
    simp only [TrialPoint.check_charger, nearest_chargers_origin_37,
      crow_flies_threshold]
    rw [if_neg (by have := toU64_distance_37_ge; rw [MAX_RANGE_METERS] at this; omega)]
  exact ⟨toU64_distance_37_ge, nearest_chargers_origin_37, hch, by rw [hch]; intro h; cases h⟩

lemma distance_origin_359 :
    TrialPoint.distance_to ⟨0, 0⟩ ⟨0, 359, 7⟩ =
      EARTH_RADIUS_METERS * (2 * (Real.pi / 360)) := by
  refine distance_origin_lon 359 (Real.pi / 360) 7 (by positivity)
    (by nlinarith [Real.pi_pos]) ?_
  rw [show ((0 : ℝ) - 359) * (Real.pi / 180) / 2 = -(Real.pi - Real.pi / 360) by ring,
    Real.sin_neg, Real.sin_pi_sub]
  ring

lemma distance_origin_359_lt :
    TrialPoint.distance_to ⟨0, 0⟩ ⟨0, 359, 7⟩ < 400000 := by
  rw [distance_origin_359, EARTH_RADIUS_METERS]
  nlinarith [Real.pi_lt_d6]

lemma distance_origin_359_nonneg :
    (0 : ℝ) ≤ TrialPoint.distance_to ⟨0, 0⟩ ⟨0, 359, 7⟩ := by
  rw [distance_origin_359, EARTH_RADIUS_METERS]
  positivity

lemma toU64_distance_359_lt :
    toU64 (TrialPoint.distance_to ⟨0, 0⟩ ⟨0, 359, 7⟩) < MAX_RANGE_METERS := by
  rw [MAX_RANGE_METERS, toU64]
  exact (Nat.floor_lt distance_origin_359_nonneg).mpr
    (by push_cast; linarith [distance_origin_359_lt])

lemma slow_scan_origin_359 :
    slow_scan ⟨0, 0⟩ [⟨0, 359, 7⟩] =
      [(⟨0, 359, 7⟩, toU64 (TrialPoint.distance_to ⟨0, 0⟩ ⟨0, 359, 7⟩))] := by
  simp only [slow_scan, List.filterMap_cons, List.filterMap_nil]
  rw [if_pos toU64_distance_359_lt, List.mergeSort_singleton]

lemma nearest_chargers_origin_359 :
    TrialPoint.nearest_chargers ⟨0, 0⟩ [⟨0, 359, 7⟩] = [] := by
  simp only [TrialPoint.nearest_chargers]
  rw [show ([⟨0, 359, 7⟩] : List ChargerLocation).filter
      (fun c => decide (overlaps (TrialPoint.queryRect ⟨0, 0⟩) c)) = [] from by
    simp [not_overlap_origin_359]]
  simp

/-- C5 counterexample: for the trial point `(0, 0)` and the single charger
recorded at longitude `359` (a wrapped coordinate 1 degree west of the
point), the haversine distance is about 111 km, so the slow linear scan keeps
the charger, but the degree-space query rectangle does not contain the point
`(0, 359)` and `nearest_chargers` returns the empty list: the index-based
result is shorter than the slow-scan result. -/
theorem c5_counterexample_prefix_violated :
    TrialPoint.nearest_chargers ⟨0, 0⟩ [⟨0, 359, 7⟩] = [] ∧
    slow_scan ⟨0, 0⟩ [⟨0, 359, 7⟩] =
      [(⟨0, 359, 7⟩, toU64 (TrialPoint.distance_to ⟨0, 0⟩ ⟨0, 359, 7⟩))] ∧
    ¬ ((slow_scan ⟨0, 0⟩ [⟨0, 359, 7⟩]).length ≤
        (TrialPoint.nearest_chargers ⟨0, 0⟩ [⟨0, 359, 7⟩]).length) := by
  refine ⟨nearest_chargers_origin_359, slow_scan_origin_359, ?_⟩
  rw [nearest_chargers_origin_359, slow_scan_origin_359]
  simp

lemma filterMap_slow_eq_map_filter (p : TrialPoint) (cs : List ChargerLocation) :
    cs.filterMap (fun charger =>
      if toU64 (p.distance_to charger) < MAX_RANGE_METERS
      then some (charger, toU64 (p.distance_to charger)) else none) =
    (cs.filter (fun c => decide (toU64 (p.distance_to c) < MAX_RANGE_METERS))).map
      (fun c => (c, toU64 (p.distance_to c))) := by
  induction cs with
  | nil => rfl
  | cons hd tl ih =>
    simp only [List.filterMap_cons, List.filter_cons]
    by_cases h : toU64 (p.distance_to hd) < MAX_RANGE_METERS
    · simp [h, ih]
    · simp [h, ih]

lemma sorted_nat_mergeSort (l : List ℕ) :
    List.Sorted (· ≤ ·) (l.mergeSort (fun a b => decide (a ≤ b))) := by
  have h := @List.sorted_mergeSort ℕ (fun a b => decide (a ≤ b))
    (fun a b c hab hbc => by
      simp only [decide_eq_true_eq] at hab hbc ⊢
      omega)
    (fun a b => by simpa using Nat.le_total a b) l
  exact List.Pairwise.imp (fun hab => by simpa using hab) h

lemma sorted_prefix_of_filter (w u v : List ℕ)
    (hu : u.Perm (w.filter (fun x => decide (x < MAX_RANGE_METERS))))
    (hv : v.Perm w)
    (hus : List.Sorted (· ≤ ·) u) (hvs : List.Sorted (· ≤ ·) v) :
    u.length ≤ v.length ∧ ∀ i < u.length, v[i]? = u[i]? := by
  have htsorted : List.Sorted (· ≤ ·)
      ((w.filter (fun x => ! decide (x < MAX_RANGE_METERS))).mergeSort
        (fun a b => decide (a ≤ b))) := sorted_nat_mergeSort _
  have htperm : ((w.filter (fun x => ! decide (x < MAX_RANGE_METERS))).mergeSort
      (fun a b => decide (a ≤ b))).Perm
        (w.filter (fun x => ! decide (x < MAX_RANGE_METERS))) :=
    List.mergeSort_perm _ _
  have happ : (u ++ (w.filter (fun x => ! decide (x < MAX_RANGE_METERS))).mergeSort
      (fun a b => decide (a ≤ b))).Perm w :=
    (hu.append htperm).trans (List.filter_append_perm _ w)
  have hcross : ∀ a ∈ u,
      ∀ b ∈ (w.filter (fun x => ! decide (x < MAX_RANGE_METERS))).mergeSort
        (fun a b => decide (a ≤ b)), a ≤ b := by
    intro a ha b hb
    have ha3 : a < MAX_RANGE_METERS := by
      simpa using List.of_mem_filter (hu.subset ha)
    have hb3 : ¬ b < MAX_RANGE_METERS := by
      simpa using List.of_mem_filter (htperm.subset hb)
    omega
  have happsorted : List.Sorted (· ≤ ·)
      (u ++ (w.filter (fun x => ! decide (x < MAX_RANGE_METERS))).mergeSort
        (fun a b => decide (a ≤ b))) :=
    List.pairwise_append.mpr ⟨hus, htsorted, hcross⟩
  have heq : v = u ++ (w.filter (fun x => ! decide (x < MAX_RANGE_METERS))).mergeSort
      (fun a b => decide (a ≤ b)) :=
    List.eq_of_perm_of_sorted (hv.trans happ.symm) hvs happsorted
  constructor
  · rw [heq, List.length_append]
    omega
  · intro i hi
    rw [heq, List.getElem?_append_left hi]

/-- C5 amended: for every trial point and charger set such that every charger
with truncated geodesic distance below `MAX_RANGE_METERS` lies inside the
point's padded query rectangle (the rectangle is a superset filter for the
400 km disk, which fails only for wrapped or near-polar coordinates), the
slow linear-scan result is prefix-compatible with `nearest_chargers`: the
index-based result is at least as long, and the distances agree at every
index below the slow-scan length. -/
theorem c5_amended_prefix_compatible (p : TrialPoint) (cs : List ChargerLocation)
    (hcover : ∀ c ∈ cs, toU64 (p.distance_to c) < MAX_RANGE_METERS →
      overlaps p.queryRect c) :
    (slow_scan p cs).length ≤ (p.nearest_chargers cs).length ∧
    ∀ i < (slow_scan p cs).length,
      ((p.nearest_chargers cs).map Prod.snd)[i]? =
        ((slow_scan p cs).map Prod.snd)[i]? := by
  have hvperm : ((p.nearest_chargers cs).map Prod.snd).Perm
      ((cs.filter (fun c => decide (overlaps p.queryRect c))).map
        (fun c => toU64 (p.distance_to c))) := by
    simp only [TrialPoint.nearest_chargers]
    have hperm := (List.mergeSort_perm
      ((cs.filter (fun c => decide (overlaps p.queryRect c))).map
        (fun c => (c, toU64 (p.distance_to c))))
      (fun a b => decide (a.2 ≤ b.2))).map Prod.snd
    simpa [List.map_map, Function.comp] using hperm
  have huperm : ((slow_scan p cs).map Prod.snd).Perm
      ((cs.filter (fun c => decide (toU64 (p.distance_to c) < MAX_RANGE_METERS))).map
        (fun c => toU64 (p.distance_to c))) := by
    simp only [slow_scan, filterMap_slow_eq_map_filter]
    have hperm := (List.mergeSort_perm
      ((cs.filter (fun c => decide (toU64 (p.distance_to c) < MAX_RANGE_METERS))).map
        (fun c => (c, toU64 (p.distance_to c))))
      (fun a b => decide (a.2 ≤ b.2))).map Prod.snd
    simpa [List.map_map, Function.comp] using hperm
  have hfilter_eq :
      ((cs.filter (fun c => decide (overlaps p.queryRect c))).map
        (fun c => toU64 (p.distance_to c))).filter
          (fun x => decide (x < MAX_RANGE_METERS)) =
      (cs.filter (fun c => decide (toU64 (p.distance_to c) < MAX_RANGE_METERS))).map
        (fun c => toU64 (p.distance_to c)) := by
    rw [List.filter_map, List.filter_filter]
    congr 1
    apply List.filter_congr
    intro c hc
    by_cases h : toU64 (p.distance_to c) < MAX_RANGE_METERS
    · simp [Function.comp, h, hcover c hc h]
    · simp [Function.comp, h]
  have hus : List.Sorted (· ≤ ·) ((slow_scan p cs).map Prod.snd) := by
    simp only [slow_scan]
    exact sorted_map_snd_mergeSort _
  have hvs : List.Sorted (· ≤ ·) ((p.nearest_chargers cs).map Prod.snd) :=
    nearest_chargers_sorted p cs
  have hmain := sorted_prefix_of_filter
    ((cs.filter (fun c => decide (overlaps p.queryRect c))).map
      (fun c => toU64 (p.distance_to c)))
    ((slow_scan p cs).map Prod.snd)
    ((p.nearest_chargers cs).map Prod.snd)
    (by rw [hfilter_eq]; exact huperm) hvperm hus hvs
  constructor
  · have h1 := hmain.1
    simpa [List.length_map] using h1
  · intro i hi
    exact hmain.2 i (by simpa [List.length_map] using hi)

lemma overlap_origin_self : overlaps (TrialPoint.queryRect ⟨0, 0⟩) ⟨0, 0, 1⟩ := by
  rw [queryRect_origin]
  exact ⟨neg_nonpos_of_nonneg originPad_nonneg, originPad_nonneg,
    neg_nonpos_of_nonneg originPad_nonneg, originPad_nonneg⟩

/-- Witness for the amended C5 at the origin trial point with one charger at
the same coordinates (its distance, 0, is below range and it lies in the
query rectangle). -/
theorem c5_amended_witness :
    (slow_scan ⟨0, 0⟩ [⟨0, 0, 1⟩]).length ≤
      (TrialPoint.nearest_chargers ⟨0, 0⟩ [⟨0, 0, 1⟩]).length :=
  (c5_amended_prefix_compatible ⟨0, 0⟩ [⟨0, 0, 1⟩] (by
    intro c hc _
    rw [List.mem_singleton] at hc
    subst hc
    exact overlap_origin_self)).1

/-- Witness for C4 at the unit region with `N = 4`. -/
theorem c4_witness : (BoundingBox.chunkify ⟨1, 0, 0, 1⟩ 4).length = 4 :=
  (c4_chunkify_shape ⟨1, 0, 0, 1⟩ 4 (Or.inl rfl)).1
